import Mathlib

/-!
Shallow embedding of the MSPRBack plant-care backend (FastAPI + SQLAlchemy),
covering `app/security.py`, `app/models.py`, `app/auth.py` and the routers
`app/routers/{users,plants,comments,auth}.py`.

External libraries (hashlib, cryptography.fernet, passlib/bcrypt, python-jose)
are modelled as an abstract `Crypto` record of primitive functions, and
pydantic's `EmailStr` validator as an abstract predicate; theorems
that depend on a library contract (e.g. Fernet's decrypt-of-encrypt round
trip) take that contract as an explicit hypothesis.  Everything written in
the repository itself (the `None` pass-through wrappers, the hash+ciphertext
field pairs, the router logic and its authorization checks) is translated
directly from the Python source.

The database session is modelled as an explicit `DB` value; an endpoint that
raises `HTTPException` before committing is modelled as returning
`Except.error` and leaving the caller's `DB` untouched (no new `DB` is
produced on the error path, which is how "the resource is unchanged" is
expressed below).
-/

namespace MSPRBack

/-- JWT payload as built by `auth.create_access_token`: a `sub` claim
(plaintext email, absent when the dict had no `sub` key) and an absolute
`exp` timestamp (seconds). -/
structure JwtPayload where
  sub : Option String
  exp : Nat
deriving Repr, DecidableEq

/-- A signed token as produced by `jose.jwt.encode`: the payload together
with its signature over the configured secret. -/
structure Jwt where
  payload : JwtPayload
  sig : String
deriving Repr, DecidableEq

/-- Abstract model of the external cryptographic libraries:
`hashlib.sha256(...).hexdigest()`, `hashlib.sha256(...).digest()`,
`Fernet.encrypt`/`Fernet.decrypt` (decrypt returns `none` on
`InvalidToken`), passlib bcrypt hash/verify, and python-jose's signing
function.  Fernet encryption is randomized in reality; a deterministic
function is a sound abstraction for the claims below, none of which
depends on ciphertext freshness. -/
structure Crypto where
  sha256hex : String → String
  sha256bytes : String → List Nat
  fernetEnc : String → String
  fernetDec : String → Option String
  bcryptHash : String → String
  bcryptVerify : String → String → Bool
  joseSign : JwtPayload → String → String

/-- An `HTTPException` raised by an endpoint: status code and detail
message. -/
structure HTTPError where
  status : Nat
  detail : String
deriving Repr, DecidableEq

/-- `fernet.decrypt` raising `InvalidToken` inside `decrypt_value`. -/
inductive CryptoError where
  | invalidToken
deriving Repr, DecidableEq

/-- `SecurityManager.hash_value` (security.py): `None` passes through,
otherwise the SHA-256 hex digest of the value. -/
def hash_value (c : Crypto) : Option String → Option String
  | none => none
  | some v => some (c.sha256hex v)

/-- `SecurityManager.encrypt_value` (security.py): `None` passes through,
otherwise the Fernet ciphertext. -/
def encrypt_value (c : Crypto) : Option String → Option String
  | none => none
  | some v => some (c.fernetEnc v)

/-- `SecurityManager.decrypt_value` (security.py): `None` passes through;
a ciphertext that Fernet rejects raises (modelled as `Except.error`). -/
def decrypt_value (c : Crypto) : Option String → Except CryptoError (Option String)
  | none => .ok none
  | some e =>
    match c.fernetDec e with
    | some p => .ok (some p)
    | none => .error .invalidToken

/-- The urlsafe base64 alphabet used by `base64.urlsafe_b64encode`. -/
def b64urlAlphabet : List Char :=
  "ABCDEFGHIJKLMNOPQRSTUVWXYZabcdefghijklmnopqrstuvwxyz0123456789-_".toList

/-- The base64 character for a 6-bit group. -/
def b64Char (n : Nat) : Char := b64urlAlphabet.getD n 'A'

/-- `base64.urlsafe_b64encode` on a byte list, producing the padded
character sequence. -/
def b64Encode : List Nat → List Char
  | [] => []
  | [a] => [b64Char (a / 4), b64Char (a % 4 * 16), '=', '=']
  | [a, b] => [b64Char (a / 4), b64Char (a % 4 * 16 + b / 16), b64Char (b % 16 * 4), '=']
  | a :: b :: d :: rest =>
    b64Char (a / 4) :: b64Char (a % 4 * 16 + b / 16) ::
    b64Char (b % 16 * 4 + d / 64) :: b64Char (d % 64) :: b64Encode rest

/-- `SecurityManager._prepare_key` (security.py): a string of length 44
ending in `==` is assumed to already be a Fernet key and returned as-is;
anything else is replaced by the urlsafe-base64 encoding of its SHA-256
digest. -/
def prepare_key (c : Crypto) (key_string : String) : String :=
  if key_string.length == 44 && key_string.drop 42 == "==" then
    key_string
  else
    String.mk (b64Encode (c.sha256bytes key_string))

/-- A string shaped like a valid Fernet key: urlsafe base64 of exactly 32
bytes, i.e. 44 characters, the first 43 from the base64url alphabet and a
single `=` pad at the end. -/
def plausibleFernetKey (s : String) : Bool :=
  s.length == 44 &&
  (s.toList.take 43).all (fun ch => b64urlAlphabet.contains ch) &&
  s.toList.getLast? == some '='

/-- The `users` table row (models.py `User`): each sensitive attribute is
stored as a hash/ciphertext pair, plus the bcrypt password digest and the
two flags. -/
structure User where
  id : Nat
  email_hash : Option String
  email_encrypted : Option String
  username_hash : Option String
  username_encrypted : Option String
  phone_hash : Option String
  phone_encrypted : Option String
  hashed_password : String
  is_active : Bool
  is_botanist : Bool
deriving Repr, DecidableEq

/-- The `email` property setter (models.py): when the value is not `None`,
both the hash and the ciphertext are recomputed; a `None` value leaves the
row untouched. -/
def User.setEmail (c : Crypto) (u : User) : Option String → User
  | none => u
  | some v =>
    { u with
      email_hash := some (c.sha256hex v)
      email_encrypted := some (c.fernetEnc v) }

/-- The `username` property setter (models.py). -/
def User.setUsername (c : Crypto) (u : User) : Option String → User
  | none => u
  | some v =>
    { u with
      username_hash := some (c.sha256hex v)
      username_encrypted := some (c.fernetEnc v) }

/-- The `phone` property setter (models.py). -/
def User.setPhone (c : Crypto) (u : User) : Option String → User
  | none => u
  | some v =>
    { u with
      phone_hash := some (c.sha256hex v)
      phone_encrypted := some (c.fernetEnc v) }

/-- The `email` property getter (models.py): decrypts the stored
ciphertext; Python truthiness makes both `None` and the empty string yield
`None` without decrypting. -/
def User.emailPlain (c : Crypto) (u : User) : Except CryptoError (Option String) :=
  match u.email_encrypted with
  | none => .ok none
  | some e => if e = "" then .ok none else decrypt_value c (some e)

/-- The `plants` table row (models.py `Plant`). -/
structure Plant where
  id : Nat
  name : String
  location : String
  care_instructions : Option String
  photo_url : Option String
  owner_id : Nat
  created_at : Nat
  in_care_id : Option Nat
  plant_sitting : Option Nat
deriving Repr, DecidableEq

/-- The `commentary` table row (models.py `Comment`). -/
structure Comment where
  id : Nat
  plant_id : Nat
  user_id : Nat
  comment : String
  time_stamp : Nat
deriving Repr, DecidableEq

/-- The database session state: the three tables. -/
structure DB where
  users : List User
  plants : List Plant
  comments : List Comment
deriving Repr, DecidableEq

/-- The `schemas.User` pydantic model: the decrypted public view of a user,
also what `auth.get_current_user` hands to the routers. -/
structure SchemaUser where
  id : Nat
  email : Option String
  username : Option String
  phone : Option String
  is_active : Bool
  is_botanist : Bool
deriving Repr, DecidableEq

/-- Replace the user row with the given id (the effect of mutating a loaded
ORM object and committing). -/
def DB.putUser (db : DB) (uid : Nat) (u' : User) : DB :=
  { db with users := db.users.map (fun v => if v.id == uid then u' else v) }

/-- Replace the plant row with the given id. -/
def DB.putPlant (db : DB) (pid : Nat) (p' : Plant) : DB :=
  { db with plants := db.plants.map (fun q => if q.id == pid then p' else q) }

/-- Replace the comment row with the given id. -/
def DB.putComment (db : DB) (cid : Nat) (cm' : Comment) : DB :=
  { db with comments := db.comments.map (fun x => if x.id == cid then cm' else x) }

/-- `auth.verify_password`: bcrypt verification of a plain password against
a stored digest. -/
def verify_password (c : Crypto) (plain_password hashed_password : String) : Bool :=
  c.bcryptVerify plain_password hashed_password

/-- `auth.get_password_hash`: bcrypt hash of a password. -/
def get_password_hash (c : Crypto) (password : String) : String :=
  c.bcryptHash password

/-- `auth.create_access_token`: embeds the given claims with an absolute
expiry `now + expires_delta` (seconds; 15 minutes when no delta is given)
and signs with the configured secret. -/
def create_access_token (c : Crypto) (secret : String) (now : Nat)
    (sub : Option String) (expires_delta : Option Nat) : Jwt :=
  let exp :=
    match expires_delta with
    | some d => now + d
    | none => now + 15 * 60
  let payload : JwtPayload := { sub := sub, exp := exp }
  { payload := payload, sig := c.joseSign payload secret }

/-- `auth.get_user_by_email`: equality lookup on the email hash column. -/
def get_user_by_email (c : Crypto) (db : DB) (email : String) : Option User :=
  db.users.find? (fun u => u.email_hash == hash_value c (some email))

/-- The `credentials_exception` raised throughout `auth.get_current_user`. -/
def credentialsException : HTTPError :=
  { status := 401, detail := "Could not validate credentials" }

/-- An unhandled Python exception surfacing as a 500 (e.g. a `CryptoError`
on a stored ciphertext, or an attribute access on `None`). -/
def internalServerError : HTTPError :=
  { status := 500, detail := "Internal Server Error" }

/-- `auth.get_current_user`: decodes the JWT (signature must verify
against the configured secret and the expiry must be in the future —
`JWTError` otherwise), requires a `sub` claim, re-derives the email hash
and looks the user up by it, then constructs the `schemas.User` view from
the decrypted fields.  `emailstr` models pydantic's `EmailStr` validator
(an external library): `schemas.User` declares `email : EmailStr`,
`username : str` and `phone : str` as required, so a decrypted value that
is absent or an email that fails validation raises a `ValidationError`,
which — like a `CryptoError` from `decrypt_value` — is unhandled and
surfaces as a 500, not the 401.  The stored `is_active` flag is never
consulted. -/
def get_current_user (c : Crypto) (emailstr : String → Bool) (secret : String)
    (now : Nat) (db : DB) (token : Jwt) : Except HTTPError SchemaUser :=
  if token.sig == c.joseSign token.payload secret && now < token.payload.exp then
    match token.payload.sub with
    | none => .error credentialsException
    | some email =>
      match db.users.find? (fun u => u.email_hash == hash_value c (some email)) with
      | none => .error credentialsException
      | some user =>
        match decrypt_value c user.email_encrypted,
              decrypt_value c user.username_encrypted,
              decrypt_value c user.phone_encrypted with
        | .ok (some e), .ok (some un), .ok (some ph) =>
          if emailstr e then
            .ok { id := user.id, email := some e, username := some un, phone := some ph,
                  is_active := user.is_active, is_botanist := user.is_botanist }
          else .error internalServerError
        | _, _, _ => .error internalServerError
  else
    .error credentialsException

/-- `auth.authenticate_user`: email-hash lookup then bcrypt verification;
both failure causes return the same falsy value (modelled as `none`). -/
def authenticate_user (c : Crypto) (db : DB) (email password : String) : Option User :=
  match get_user_by_email c db email with
  | none => none
  | some user =>
    if verify_password c password user.hashed_password then some user else none

/-- The generic login failure raised by `routers/auth.login` for both an
unknown email and a wrong password. -/
def incorrectCredentials : HTTPError :=
  { status := 401, detail := "Incorrect email or password" }

/-- `routers/auth.login` (the `/token` endpoint): email-hash lookup, bcrypt
verification, then a token whose `sub` is the decrypted stored email and
whose expiry is `now + ACCESS_TOKEN_EXPIRE_MINUTES` minutes. -/
def login (c : Crypto) (secret : String) (expire_minutes : Nat) (now : Nat)
    (db : DB) (form_username form_password : String) : Except HTTPError Jwt :=
  let email_hash := hash_value c (some form_username)
  match db.users.find? (fun u => u.email_hash == email_hash) with
  | none => .error incorrectCredentials
  | some user =>
    if verify_password c form_password user.hashed_password then
      match decrypt_value c user.email_encrypted with
      | .ok sub => .ok (create_access_token c secret now sub (some (expire_minutes * 60)))
      | .error _ => .error internalServerError
    else
      .error incorrectCredentials

/-- `routers/users.create_user` (`POST /users/`): pre-checks the email hash
then the username hash against the stored columns, inserts the new row with
both hash and ciphertext for each sensitive field, and returns the
decrypted view.  `new_id` stands for the autoincrement primary key. -/
def create_user (c : Crypto) (db : DB) (new_id : Nat)
    (email username phone password : String) (is_botanist : Bool) :
    Except HTTPError (DB × SchemaUser) :=
  let email_hash := hash_value c (some email)
  match db.users.find? (fun u => u.email_hash == email_hash) with
  | some _ => .error { status := 400, detail := "Email already registered" }
  | none =>
    match db.users.find? (fun u => u.username_hash == hash_value c (some username)) with
    | some _ => .error { status := 400, detail := "Username already taken" }
    | none =>
      let db_user : User :=
        { id := new_id
          email_hash := email_hash
          username_hash := hash_value c (some username)
          phone_hash := hash_value c (some phone)
          email_encrypted := encrypt_value c (some email)
          username_encrypted := encrypt_value c (some username)
          phone_encrypted := encrypt_value c (some phone)
          hashed_password := get_password_hash c password
          is_botanist := is_botanist
          is_active := true }
      let db' : DB := { db with users := db.users ++ [db_user] }
      match decrypt_value c db_user.email_encrypted,
            decrypt_value c db_user.username_encrypted,
            decrypt_value c db_user.phone_encrypted with
      | .ok e, .ok un, .ok ph =>
        .ok (db', { id := db_user.id, email := e, username := un, phone := ph,
                    is_active := db_user.is_active, is_botanist := db_user.is_botanist })
      | _, _, _ => .error internalServerError

/-- `routers/users.edit_user` (`PUT /users/{user_id}`): rejects a target id
other than the caller's own with a 403; checks email/username collisions
(skipping the check when the new value is falsy or equals the caller's
current one); then writes hash+ciphertext for every non-`None` field and
returns the decrypted view. -/
def edit_user (c : Crypto) (db : DB) (user_id : Nat)
    (email username phone : Option String) (is_botanist : Option Bool)
    (current_user : SchemaUser) : Except HTTPError (DB × SchemaUser) :=
  if user_id != current_user.id then
    .error { status := 403, detail := "Not authorized to update other users" }
  else
    match db.users.find? (fun u => u.id == user_id) with
    | none => .error { status := 404, detail := "User not found" }
    | some db_user =>
      let emailTaken :=
        match email with
        | some e =>
          if e != "" && some e != current_user.email then
            match db.users.find? (fun u : User => u.email_hash == hash_value c (some e)) with
            | some existing => existing.id != user_id
            | none => false
          else false
        | none => false
      if emailTaken then
        .error { status := 400, detail := "Email already registered" }
      else
        let usernameTaken :=
          match username with
          | some un =>
            if un != "" && some un != current_user.username then
              match db.users.find? (fun u : User => u.username_hash == hash_value c (some un)) with
              | some existing => existing.id != user_id
              | none => false
            else false
          | none => false
        if usernameTaken then
          .error { status := 400, detail := "Username already taken" }
        else
          let u3 := ((db_user.setEmail c email).setUsername c username).setPhone c phone
          let u4 :=
            match is_botanist with
            | some b => { u3 with is_botanist := b }
            | none => u3
          match decrypt_value c u4.email_encrypted,
                decrypt_value c u4.username_encrypted,
                decrypt_value c u4.phone_encrypted with
          | .ok e, .ok un, .ok ph =>
            .ok (db.putUser user_id u4,
                 { id := u4.id, email := e, username := un, phone := ph,
                   is_active := u4.is_active, is_botanist := u4.is_botanist })
          | _, _, _ => .error internalServerError

/-- `routers/users.delete_user` (`DELETE /users/`): looks the target up by
id and deletes it.  The resolved `current_user` is only logged — the check
`id == current_user.id` is absent, so any authenticated caller may delete
any account.  The `cascade="all, delete-orphan"` relationship removes the
user's comments with the row. -/
def delete_user (db : DB) (id : Nat) (current_user : SchemaUser) :
    Except HTTPError (DB × User) :=
  match db.users.find? (fun u => u.id == id) with
  | none => .error { status := 404, detail := "User not found" }
  | some db_user =>
    .ok ({ db with
           users := db.users.filter (fun v => v.id != id)
           comments := db.comments.filter (fun cm => cm.user_id != id) },
         db_user)

/-- The base URL prepended to photo paths (plants.py `base_url`). -/
def base_url : String := "localhost:8000"

/-- `routers/plants.update_plant` (`PUT /plants/{plant_id}`): the query
filters on `id == plant_id AND owner_id == current_user.id`, so a plant
that exists but belongs to someone else yields the same 404 as a missing
plant; on success each non-`None` field is written.  `photo` is the
uploaded file's filename (`none` when no file was sent; Python skips the
photo block when the file is absent or its filename is empty). -/
def update_plant (db : DB) (plant_id : Nat)
    (name location care_instructions : Option String) (photo : Option String)
    (current_user_id : Nat) (in_care_id : Option Nat) :
    Except HTTPError (DB × Plant) :=
  match db.plants.find? (fun p => p.id == plant_id && p.owner_id == current_user_id) with
  | none =>
    .error { status := 404, detail := "Plant not found or not owned by current user" }
  | some plant =>
    let p1 := match name with
      | some n => { plant with name := n }
      | none => plant
    let p2 := match location with
      | some l => { p1 with location := l }
      | none => p1
    let p3 := match care_instructions with
      | some ci => { p2 with care_instructions := some ci }
      | none => p2
    let p4 := match in_care_id with
      | some ic => { p3 with in_care_id := some ic }
      | none => p3
    let p5 := match photo with
      | some fn =>
        if fn != "" then
          let url := base_url ++ "/photos/" ++ toString current_user_id ++ "_" ++ fn
          { p4 with photo_url := some url }
        else p4
      | none => p4
    .ok (db.putPlant plant_id p5, p5)

/-- `routers/plants.delete_plant` (`DELETE /plants`): looks the plant up by
id alone and deletes it.  The endpoint has no `current_user` dependency at
all — no authentication and no ownership check guard the deletion.  The
cascade relationship removes the plant's comments with the row. -/
def delete_plant (db : DB) (plant_id : Nat) : Except HTTPError (DB × Plant) :=
  match db.plants.find? (fun p => p.id == plant_id) with
  | none => .error { status := 404, detail := "The plant was not found" }
  | some plant =>
    .ok ({ db with
           plants := db.plants.filter (fun q => q.id != plant_id)
           comments := db.comments.filter (fun cm => cm.plant_id != plant_id) },
         plant)

/-- `routers/comments.update_comment` (`PUT /comments/{comment_id}`): 404
when the comment is missing, 403 unless the caller is the comment's
author, otherwise the text is replaced. -/
def update_comment (db : DB) (comment_id : Nat) (comment_text : String)
    (current_user_id : Nat) : Except HTTPError (DB × Comment) :=
  match db.comments.find? (fun cm => cm.id == comment_id) with
  | none => .error { status := 404, detail := "Comment not found" }
  | some db_comment =>
    if db_comment.user_id != current_user_id then
      .error { status := 403, detail := "Not authorized to update this comment" }
    else
      let cm' := { db_comment with comment := comment_text }
      .ok (db.putComment comment_id cm', cm')

/-- The 403 raised by `routers/comments.delete_comment`. -/
def notAuthorizedDeleteComment : HTTPError :=
  { status := 403,
    detail := "Not authorized to delete this comment. Must be comment author or plant owner." }

/-- `routers/comments.delete_comment` (`DELETE /comments/{comment_id}`):
404 when the comment is missing; then the owning plant is loaded and the
caller must be the comment's author or that plant's owner (a boolean OR).
When the referenced plant row is missing, `plant.owner_id` in the source
dereferences `None` and the request fails with an unhandled 500. -/
def delete_comment (db : DB) (comment_id : Nat) (current_user_id : Nat) :
    Except HTTPError (DB × Comment) :=
  match db.comments.find? (fun cm => cm.id == comment_id) with
  | none => .error { status := 404, detail := "Comment not found" }
  | some db_comment =>
    match db.plants.find? (fun p => p.id == db_comment.plant_id) with
    | none => .error internalServerError
    | some plant =>
      if db_comment.user_id != current_user_id && plant.owner_id != current_user_id then
        .error notAuthorizedDeleteComment
      else
        .ok ({ db with comments := db.comments.filter (fun x => x.id != comment_id) },
             db_comment)

/-! ## Helper lemmas and a concrete instantiation of the external primitives -/

/-- A concrete instantiation of the `Crypto` record, used to evaluate the
embedded operations on closed inputs: the hash is modelled as the identity
(injective, deterministic), Fernet as a reversible tagging cipher, bcrypt
as tagging, and the JWT signature as a function of payload and key. -/
def exCrypto : Crypto where
  sha256hex := fun s => s
  sha256bytes := fun _ => List.replicate 32 0
  fernetEnc := fun s => String.mk ('!' :: s.toList)
  fernetDec := fun s =>
    match s.toList with
    | '!' :: cs => some (String.mk cs)
    | _ => none
  bcryptHash := fun p => String.mk ('#' :: p.toList)
  bcryptVerify := fun p h => h == String.mk ('#' :: p.toList)
  joseSign := fun pl k => k ++ pl.sub.getD "?" ++ toString pl.exp

/-- The tagging cipher of `exCrypto` satisfies Fernet's round-trip
contract. -/
theorem exCrypto_roundtrip (t : String) :
    exCrypto.fernetDec (exCrypto.fernetEnc t) = some t := rfl

/-- Every character emitted for a 6-bit group lies in the base64url
alphabet. -/
theorem b64Char_mem {n : Nat} (h : n < 64) : b64Char n ∈ b64urlAlphabet := by
  have hlen : b64urlAlphabet.length = 64 := by decide
  have hlt : n < b64urlAlphabet.length := by omega
  unfold b64Char
  rw [List.getD_eq_getElem _ _ hlt]
  exact List.getElem_mem hlt

/-- Shape of the base64 encoding of a byte list whose length is 2 mod 3:
43-per-32-bytes data characters from the alphabet followed by a single
`=` pad. -/
theorem b64Encode_shape :
    ∀ l : List Nat, (∀ b ∈ l, b < 256) → l.length % 3 = 2 →
      ∃ cs, b64Encode l = cs ++ ['='] ∧ cs.length = l.length / 3 * 4 + 3 ∧
        ∀ ch ∈ cs, ch ∈ b64urlAlphabet := by
  intro l
  induction l using b64Encode.induct with
  | case1 => intro _ h; simp at h
  | case2 a => intro _ h; simp at h
  | case3 a b =>
    intro hb _
    have ha : a < 256 := hb a (by simp)
    have hbb : b < 256 := hb b (by simp)
    refine ⟨[b64Char (a / 4), b64Char (a % 4 * 16 + b / 16), b64Char (b % 16 * 4)],
      rfl, by simp, ?_⟩
    intro ch hch
    simp only [List.mem_cons, List.not_mem_nil, or_false] at hch
    rcases hch with h1 | h1 | h1 <;> subst h1 <;> apply b64Char_mem <;> omega
  | case4 a b d rest ih =>
    intro hb hlen
    have ha : a < 256 := hb a (by simp)
    have hbb : b < 256 := hb b (by simp)
    have hd : d < 256 := hb d (by simp)
    have hrest : ∀ x ∈ rest, x < 256 := fun x hx => hb x (by simp [hx])
    have hlen' : rest.length % 3 = 2 := by
      simp only [List.length_cons] at hlen; omega
    obtain ⟨cs, hcs, hcslen, hcsmem⟩ := ih hrest hlen'
    refine ⟨b64Char (a / 4) :: b64Char (a % 4 * 16 + b / 16) ::
      b64Char (b % 16 * 4 + d / 64) :: b64Char (d % 64) :: cs, ?_, ?_, ?_⟩
    · simp [b64Encode, hcs]
    · simp only [List.length_cons, List.length_cons, hcslen]
      omega
    · intro ch hch
      simp only [List.mem_cons] at hch
      rcases hch with h1 | h1 | h1 | h1 | h1
      · subst h1; apply b64Char_mem; omega
      · subst h1; apply b64Char_mem; omega
      · subst h1; apply b64Char_mem; omega
      · subst h1; apply b64Char_mem; omega
      · exact hcsmem ch h1

/-! ## Claim theorems -/

/-- C10: assigning `None` through a sensitive-field setter is a no-op —
the whole row, in particular the stored hash and ciphertext, keeps its
previous value — and more generally a set hash/ciphertext pair can never
return to absent through the setter: after any assignment the field is
populated exactly when it was populated before or a value was supplied. -/
theorem C10_none_assignment_noop (c : Crypto) (u : User) :
    (u.setEmail c none = u ∧ u.setUsername c none = u ∧ u.setPhone c none = u) ∧
    (∀ v, (u.setEmail c v).email_hash.isSome = (u.email_hash.isSome || v.isSome) ∧
          (u.setEmail c v).email_encrypted.isSome = (u.email_encrypted.isSome || v.isSome)) ∧
    (∀ v, (u.setUsername c v).username_hash.isSome = (u.username_hash.isSome || v.isSome) ∧
          (u.setUsername c v).username_encrypted.isSome = (u.username_encrypted.isSome || v.isSome)) ∧
    (∀ v, (u.setPhone c v).phone_hash.isSome = (u.phone_hash.isSome || v.isSome) ∧
          (u.setPhone c v).phone_encrypted.isSome = (u.phone_encrypted.isSome || v.isSome)) := by
  refine ⟨⟨rfl, rfl, rfl⟩, ?_, ?_, ?_⟩ <;> intro v <;> cases v <;>
    simp [User.setEmail, User.setUsername, User.setPhone]

/-- C7: under Fernet's round-trip contract, `decrypt_value` of
`encrypt_value` returns the original plaintext, and `hash_value` is a
(pure, deterministic) function of its input. -/
theorem C7_encrypt_decrypt_roundtrip (c : Crypto)
    (hfernet : ∀ t, c.fernetDec (c.fernetEnc t) = some t) (s : String) :
    decrypt_value c (encrypt_value c (some s)) = .ok (some s) ∧
    hash_value c (some s) = hash_value c (some s) := by
  refine ⟨?_, rfl⟩
  simp [encrypt_value, decrypt_value, hfernet]

/-- Witness for C7 at a concrete plaintext and the concrete cipher. -/
theorem C7_witness :
    decrypt_value exCrypto (encrypt_value exCrypto (some "alice@example.com")) =
      .ok (some "alice@example.com") ∧
    hash_value exCrypto (some "alice@example.com") =
      hash_value exCrypto (some "alice@example.com") :=
  C7_encrypt_decrypt_roundtrip exCrypto (fun _ => rfl) "alice@example.com"

/-- C5: an unregistered email and a registered email with a wrong password
produce the identical generic 401 "Incorrect email or password" from the
login endpoint, and the identical falsy result from `authenticate_user`,
so the caller cannot tell whether the email is registered. -/
theorem C5_login_indistinguishable (c : Crypto) (secret : String)
    (expire_minutes now : Nat) (db : DB) (e1 p1 e2 p2 : String) (u2 : User)
    (h1 : db.users.find? (fun u => u.email_hash == hash_value c (some e1)) = none)
    (h2 : db.users.find? (fun u => u.email_hash == hash_value c (some e2)) = some u2)
    (h3 : c.bcryptVerify p2 u2.hashed_password = false) :
    login c secret expire_minutes now db e1 p1 = .error incorrectCredentials ∧
    login c secret expire_minutes now db e2 p2 = .error incorrectCredentials ∧
    authenticate_user c db e1 p1 = none ∧
    authenticate_user c db e2 p2 = none := by
  unfold login authenticate_user get_user_by_email verify_password
  simp [h1, h2, h3]

/-- The registered user of the C5 witness database. -/
def C5u : User where
  id := 1
  email_hash := some "bob@x"
  email_encrypted := some "!bob@x"
  username_hash := some "bob"
  username_encrypted := some "!bob"
  phone_hash := some "555"
  phone_encrypted := some "!555"
  hashed_password := "#pw"
  is_active := true
  is_botanist := false

/-- The C5 witness database. -/
def C5db : DB := ⟨[C5u], [], []⟩

/-- Witness for C5: a concrete unknown email and a concrete wrong password
yield the same error value. -/
theorem C5_witness :
    login exCrypto "sec" 30 0 C5db "nobody@x" "pw" = .error incorrectCredentials ∧
    login exCrypto "sec" 30 0 C5db "bob@x" "wrongpw" = .error incorrectCredentials ∧
    authenticate_user exCrypto C5db "nobody@x" "pw" = none ∧
    authenticate_user exCrypto C5db "bob@x" "wrongpw" = none :=
  C5_login_indistinguishable exCrypto "sec" 30 0 C5db "nobody@x" "pw" "bob@x" "wrongpw"
    C5u (by decide) (by decide) (by decide)

/-- C4: a registration whose email hash collides with a stored email hash
fails with the 400 naming the email field; one with no email-hash
collision but a colliding username hash fails with the 400 naming the
username field.  In both cases the result is an error, which in this
model carries no database: no principal row is inserted. -/
theorem C4_duplicate_registration (c : Crypto) (db : DB) (new_id : Nat)
    (email username phone password : String) (is_botanist : Bool) :
    ((∃ u0 ∈ db.users, u0.email_hash = hash_value c (some email)) →
      create_user c db new_id email username phone password is_botanist =
        .error { status := 400, detail := "Email already registered" }) ∧
    ((∀ u0 ∈ db.users, u0.email_hash ≠ hash_value c (some email)) →
      (∃ u0 ∈ db.users, u0.username_hash = hash_value c (some username)) →
      create_user c db new_id email username phone password is_botanist =
        .error { status := 400, detail := "Username already taken" }) := by
  constructor
  · rintro ⟨u0, hmem, heq⟩
    have hs : (db.users.find? (fun u => u.email_hash == hash_value c (some email))).isSome :=
      List.find?_isSome.mpr ⟨u0, hmem, by simp [heq]⟩
    obtain ⟨u, hu⟩ := Option.isSome_iff_exists.mp hs
    simp [create_user, hu]
  · rintro hall ⟨u0, hmem, heq⟩
    have hn : db.users.find? (fun u => u.email_hash == hash_value c (some email)) = none :=
      List.find?_eq_none.mpr (fun x hx => by simp [hall x hx])
    have hs : (db.users.find? (fun u => u.username_hash == hash_value c (some username))).isSome :=
      List.find?_isSome.mpr ⟨u0, hmem, by simp [heq]⟩
    obtain ⟨u, hu⟩ := Option.isSome_iff_exists.mp hs
    simp [create_user, hn, hu]

/-- The already-registered user of the C4 witness database. -/
def C4u : User where
  id := 1
  email_hash := some "alice@x"
  email_encrypted := some "!alice@x"
  username_hash := some "alice"
  username_encrypted := some "!alice"
  phone_hash := some "111"
  phone_encrypted := some "!111"
  hashed_password := "#pw"
  is_active := true
  is_botanist := false

/-- The C4 witness database. -/
def C4db : DB := ⟨[C4u], [], []⟩

/-- Witness for C4: a same-email second registration and a same-username
second registration at concrete inputs. -/
theorem C4_witness :
    create_user exCrypto C4db 2 "alice@x" "newbie" "555" "pw" false =
      .error { status := 400, detail := "Email already registered" } ∧
    create_user exCrypto C4db 2 "new@x" "alice" "555" "pw" false =
      .error { status := 400, detail := "Username already taken" } :=
  ⟨(C4_duplicate_registration exCrypto C4db 2 "alice@x" "newbie" "555" "pw" false).1
      ⟨C4u, by decide, by decide⟩,
   (C4_duplicate_registration exCrypto C4db 2 "new@x" "alice" "555" "pw" false).2
      (by decide) ⟨C4u, by decide, by decide⟩⟩

/-- C8: given that the comment exists and its owning plant row exists,
deletion succeeds exactly when the caller is the comment's author or the
plant's owner (a boolean OR); a caller who is neither gets the 403 and the
error path deletes nothing; editing the text succeeds exactly for the
author, with a 403 otherwise. -/
theorem C8_comment_authorization (db : DB) (comment_id current_user_id : Nat)
    (cm : Comment) (plant : Plant)
    (hcm : db.comments.find? (fun x => x.id == comment_id) = some cm)
    (hpl : db.plants.find? (fun p => p.id == cm.plant_id) = some plant) :
    ((∃ r, delete_comment db comment_id current_user_id = .ok r) ↔
      (cm.user_id = current_user_id ∨ plant.owner_id = current_user_id)) ∧
    (¬(cm.user_id = current_user_id ∨ plant.owner_id = current_user_id) →
      delete_comment db comment_id current_user_id = .error notAuthorizedDeleteComment) ∧
    (∀ comment_text,
      (∃ r, update_comment db comment_id comment_text current_user_id = .ok r) ↔
        cm.user_id = current_user_id) ∧
    (∀ comment_text, cm.user_id ≠ current_user_id →
      update_comment db comment_id comment_text current_user_id =
        .error { status := 403, detail := "Not authorized to update this comment" }) := by
  simp only [delete_comment, update_comment, hcm, hpl]
  by_cases h1 : cm.user_id = current_user_id <;>
    by_cases h2 : plant.owner_id = current_user_id <;>
      simp [h1, h2]

/-- C6: under Fernet's round-trip contract, every sensitive-field write
leaves the stored pair consistent — the hash is `hash_value` of the
written plaintext and the ciphertext decrypts back to it — at the model
setters, at registration (`create_user`), and at field update
(`edit_user`); the single setter writes both halves, so they are never
updated one without the other. -/
theorem C6_hash_ciphertext_consistency (c : Crypto)
    (hfernet : ∀ t, c.fernetDec (c.fernetEnc t) = some t) :
    (∀ (u : User) (s : String),
      ((u.setEmail c (some s)).email_hash = hash_value c (some s) ∧
        decrypt_value c (u.setEmail c (some s)).email_encrypted = .ok (some s)) ∧
      ((u.setUsername c (some s)).username_hash = hash_value c (some s) ∧
        decrypt_value c (u.setUsername c (some s)).username_encrypted = .ok (some s)) ∧
      ((u.setPhone c (some s)).phone_hash = hash_value c (some s) ∧
        decrypt_value c (u.setPhone c (some s)).phone_encrypted = .ok (some s))) ∧
    (∀ db new_id email username phone password is_botanist db' out,
      create_user c db new_id email username phone password is_botanist = .ok (db', out) →
      ∃ nu, nu ∈ db'.users ∧ nu.id = new_id ∧
        nu.email_hash = hash_value c (some email) ∧
        decrypt_value c nu.email_encrypted = .ok (some email) ∧
        nu.username_hash = hash_value c (some username) ∧
        decrypt_value c nu.username_encrypted = .ok (some username) ∧
        nu.phone_hash = hash_value c (some phone) ∧
        decrypt_value c nu.phone_encrypted = .ok (some phone)) ∧
    (∀ db user_id email username phone is_botanist current_user db' out,
      edit_user c db user_id email username phone is_botanist current_user = .ok (db', out) →
      ∃ u', u' ∈ db'.users ∧ u'.id = user_id ∧
        (∀ s, email = some s → u'.email_hash = hash_value c (some s) ∧
          decrypt_value c u'.email_encrypted = .ok (some s)) ∧
        (∀ s, username = some s → u'.username_hash = hash_value c (some s) ∧
          decrypt_value c u'.username_encrypted = .ok (some s)) ∧
        (∀ s, phone = some s → u'.phone_hash = hash_value c (some s) ∧
          decrypt_value c u'.phone_encrypted = .ok (some s))) := by
  refine ⟨?_, ?_, ?_⟩
  · intro u s
    simp [User.setEmail, User.setUsername, User.setPhone, hash_value,
      decrypt_value, encrypt_value, hfernet]
  · intro db new_id email username phone password is_botanist db' out h
    simp only [create_user] at h
    split at h
    · exact absurd h (by simp)
    · split at h
      · exact absurd h (by simp)
      · split at h
        · injection h with h
          injection h with hdb hout
          subst hdb
          refine ⟨{ id := new_id,
                    email_hash := hash_value c (some email),
                    email_encrypted := encrypt_value c (some email),
                    username_hash := hash_value c (some username),
                    username_encrypted := encrypt_value c (some username),
                    phone_hash := hash_value c (some phone),
                    phone_encrypted := encrypt_value c (some phone),
                    hashed_password := get_password_hash c password,
                    is_active := true, is_botanist := is_botanist },
                  by simp, rfl, rfl, ?_, rfl, ?_, rfl, ?_⟩ <;>
            simp [decrypt_value, encrypt_value, hfernet]
        · exact absurd h (by simp)
  · intro db user_id email username phone is_botanist current_user db' out h
    simp only [edit_user] at h
    split at h
    · exact absurd h (by simp)
    · split at h
      · exact absurd h (by simp)
      · rename_i db_user hfind
        split at h
        · exact absurd h (by simp)
        · split at h
          · exact absurd h (by simp)
          · split at h
            · injection h with h
              injection h with hdb hout
              subst hdb
              have hid : db_user.id = user_id := by
                have := List.find?_some hfind
                simpa using this
              have hmem : db_user ∈ db.users := List.mem_of_find?_eq_some hfind
              cases is_botanist with
              | none =>
                refine ⟨((db_user.setEmail c email).setUsername c username).setPhone c phone,
                  List.mem_map.mpr ⟨db_user, hmem, by simp [hid]⟩, ?_, ?_, ?_, ?_⟩
                · cases email <;> cases username <;> cases phone <;>
                    simp [User.setEmail, User.setUsername, User.setPhone, hid]
                · rintro s rfl
                  cases username <;> cases phone <;>
                    simp [User.setEmail, User.setUsername, User.setPhone,
                      hash_value, decrypt_value, encrypt_value, hfernet]
                · rintro s rfl
                  cases phone <;>
                    simp [User.setEmail, User.setUsername, User.setPhone,
                      hash_value, decrypt_value, encrypt_value, hfernet]
                · rintro s rfl
                  simp [User.setEmail, User.setUsername, User.setPhone,
                    hash_value, decrypt_value, encrypt_value, hfernet]
              | some b =>
                refine ⟨{ ((db_user.setEmail c email).setUsername c username).setPhone c phone
                          with is_botanist := b },
                  List.mem_map.mpr ⟨db_user, hmem, by simp [hid]⟩, ?_, ?_, ?_, ?_⟩
                · cases email <;> cases username <;> cases phone <;>
                    simp [User.setEmail, User.setUsername, User.setPhone, hid]
                · rintro s rfl
                  cases username <;> cases phone <;>
                    simp [User.setEmail, User.setUsername, User.setPhone,
                      hash_value, decrypt_value, encrypt_value, hfernet]
                · rintro s rfl
                  cases phone <;>
                    simp [User.setEmail, User.setUsername, User.setPhone,
                      hash_value, decrypt_value, encrypt_value, hfernet]
                · rintro s rfl
                  simp [User.setEmail, User.setUsername, User.setPhone,
                    hash_value, decrypt_value, encrypt_value, hfernet]
            · exact absurd h (by simp)

/-- The plant of the C8 witness database, owned by user 1. -/
def C8plant : Plant where
  id := 10
  name := "Monstera"
  location := "Lyon"
  care_instructions := none
  photo_url := none
  owner_id := 1
  created_at := 0
  in_care_id := none
  plant_sitting := none

/-- The comment of the C8 witness database, written by user 2 on plant 10. -/
def C8cm : Comment where
  id := 5
  plant_id := 10
  user_id := 2
  comment := "nice plant"
  time_stamp := 0

/-- The C8 witness database. -/
def C8db : DB := ⟨[], [C8plant], [C8cm]⟩

/-- Witness for C8: the plant owner (user 1, not the author) may delete
the comment on their plant. -/
theorem C8_witness :
    (∃ r, delete_comment C8db 5 1 = .ok r) ↔
      (C8cm.user_id = 1 ∨ C8plant.owner_id = 1) :=
  (C8_comment_authorization C8db 5 1 C8cm C8plant (by decide) (by decide)).1

/-- The user of the C6 witness. -/
def C6u : User where
  id := 3
  email_hash := some "old@x"
  email_encrypted := some "!old@x"
  username_hash := some "old"
  username_encrypted := some "!old"
  phone_hash := some "7"
  phone_encrypted := some "!7"
  hashed_password := "#pw"
  is_active := true
  is_botanist := false

/-- Witness for C6: a concrete email write leaves a consistent pair. -/
theorem C6_witness :
    (C6u.setEmail exCrypto (some "new@x")).email_hash =
      hash_value exCrypto (some "new@x") ∧
    decrypt_value exCrypto (C6u.setEmail exCrypto (some "new@x")).email_encrypted =
      .ok (some "new@x") :=
  ((C6_hash_ciphertext_consistency exCrypto (fun _ => rfl)).1 C6u "new@x").1

/-- The plant of the C1 databases, owned by user 1. -/
def C1plant : Plant where
  id := 1
  name := "Ficus"
  location := "Paris"
  care_instructions := none
  photo_url := none
  owner_id := 1
  created_at := 0
  in_care_id := none
  plant_sitting := none

/-- The C1 database. -/
def C1db : DB := ⟨[], [C1plant], []⟩

/-- C1 counterexample: plant 1 belongs to principal 1, yet the delete
endpoint — which resolves no caller at all, so a request authenticated as
the non-owner principal 2 (or as nobody) executes exactly this call —
succeeds and removes the plant, where the claim demands a NotAuthorized
failure that leaves the plant in place. -/
theorem C1_counterexample :
    C1plant.owner_id = 1 ∧ (2 : Nat) ≠ C1plant.owner_id ∧
    delete_plant C1db 1 = .ok ({ users := [], plants := [], comments := [] }, C1plant) :=
  ⟨rfl, by decide, rfl⟩

/-- C1 amended: plant update is ownership-gated — a caller who owns no
plant with the target id gets the conflated 404 "not found or not owned"
and the error path writes nothing, while the owner's update succeeds —
but plant delete has no authorization gate at all: it succeeds for any
existing plant regardless of who (if anyone) is calling. -/
theorem C1_amended_ownership (db : DB) (plant_id uid : Nat) (pl : Plant)
    (hfind : db.plants.find? (fun p => p.id == plant_id) = some pl)
    (huniq : ∀ p ∈ db.plants, p.id = plant_id → p = pl) :
    (pl.owner_id ≠ uid →
      ∀ name location ci photo icid,
        update_plant db plant_id name location ci photo uid icid =
          .error { status := 404, detail := "Plant not found or not owned by current user" }) ∧
    (pl.owner_id = uid →
      ∀ name location ci photo icid,
        ∃ r, update_plant db plant_id name location ci photo uid icid = .ok r) ∧
    (∃ r, delete_plant db plant_id = .ok r) := by
  have hpid : pl.id = plant_id := by simpa using List.find?_some hfind
  have hmem : pl ∈ db.plants := List.mem_of_find?_eq_some hfind
  refine ⟨?_, ?_, ?_⟩
  · intro hown name location ci photo icid
    have hn : db.plants.find? (fun p => p.id == plant_id && p.owner_id == uid) = none := by
      refine List.find?_eq_none.mpr (fun p hp => ?_)
      by_cases hid : p.id = plant_id
      · have hppl := huniq p hp hid
        subst hppl
        simp [hid, hown]
      · simp [hid]
    simp [update_plant, hn]
  · intro hown name location ci photo icid
    have hs : (db.plants.find? (fun p => p.id == plant_id && p.owner_id == uid)).isSome :=
      List.find?_isSome.mpr ⟨pl, hmem, by simp [hpid, hown]⟩
    obtain ⟨q, hq⟩ := Option.isSome_iff_exists.mp hs
    unfold update_plant
    rw [hq]
    exact ⟨_, rfl⟩
  · unfold delete_plant
    rw [hfind]
    exact ⟨_, rfl⟩

/-- Witness for C1 (amended): at the concrete database, the non-owner
(principal 2) gets the 404 from update while the unguarded delete
succeeds. -/
theorem C1_witness :
    update_plant C1db 1 none none none none 2 none =
      .error { status := 404, detail := "Plant not found or not owned by current user" } ∧
    (∃ r, delete_plant C1db 1 = .ok r) :=
  ⟨(C1_amended_ownership C1db 1 2 C1plant (by decide) (by decide)).1 (by decide)
      none none none none none,
   (C1_amended_ownership C1db 1 2 C1plant (by decide) (by decide)).2.2⟩

/-- The caller of the C2 scenarios (principal 1). -/
def C2caller : SchemaUser where
  id := 1
  email := some "a@x"
  username := some "a"
  phone := some "1"
  is_active := true
  is_botanist := false

/-- User 1 of the C2 database. -/
def C2u1 : User where
  id := 1
  email_hash := some "a@x"
  email_encrypted := some "!a@x"
  username_hash := some "a"
  username_encrypted := some "!a"
  phone_hash := some "1"
  phone_encrypted := some "!1"
  hashed_password := "#pw1"
  is_active := true
  is_botanist := false

/-- User 2 of the C2 database. -/
def C2u2 : User where
  id := 2
  email_hash := some "b@x"
  email_encrypted := some "!b@x"
  username_hash := some "b"
  username_encrypted := some "!b"
  phone_hash := some "2"
  phone_encrypted := some "!2"
  hashed_password := "#pw2"
  is_active := true
  is_botanist := false

/-- The C2 database. -/
def C2db : DB := ⟨[C2u1, C2u2], [], []⟩

/-- C2 counterexample: principal 1 calls account-delete on principal 2's
account; the claim demands a NotAuthorized failure that leaves account 2
unchanged, but the endpoint performs no self-check and deletes the row. -/
theorem C2_counterexample :
    C2caller.id = 1 ∧ C2u2.id = 2 ∧ (1 : Nat) ≠ 2 ∧
    delete_user C2db 2 C2caller = .ok (⟨[C2u1], [], []⟩, C2u2) :=
  ⟨rfl, rfl, by decide, rfl⟩

/-- C2 amended: account update is self-only — targeting any other id
fails with the 403 before anything is read or written — but account
delete checks only existence: any authenticated caller can delete any
stored account. -/
theorem C2_amended_self_only (c : Crypto) (db : DB) :
    (∀ user_id email username phone ib (cu : SchemaUser), user_id ≠ cu.id →
      edit_user c db user_id email username phone ib cu =
        .error { status := 403, detail := "Not authorized to update other users" }) ∧
    (∀ i (cu : SchemaUser) u, db.users.find? (fun v => v.id == i) = some u →
      ∃ r, delete_user db i cu = .ok r) := by
  constructor
  · intro user_id email username phone ib cu hne
    simp [edit_user, hne]
  · intro i cu u hu
    unfold delete_user
    rw [hu]
    exact ⟨_, rfl⟩

/-- Witness for C2 (amended): principal 1 cannot edit account 2 but can
delete it. -/
theorem C2_witness :
    edit_user exCrypto C2db 2 none none none none C2caller =
      .error { status := 403, detail := "Not authorized to update other users" } ∧
    (∃ r, delete_user C2db 2 C2caller = .ok r) :=
  ⟨(C2_amended_self_only exCrypto C2db).1 2 none none none none C2caller (by decide),
   (C2_amended_self_only exCrypto C2db).2 2 C2caller C2u2 (by decide)⟩

/-- The stored (deactivated) user of the C3 database. -/
def C3user : User where
  id := 7
  email_hash := some "ina@x"
  email_encrypted := some "!ina@x"
  username_hash := some "ina"
  username_encrypted := some "!ina"
  phone_hash := some "9"
  phone_encrypted := some "!9"
  hashed_password := "#pw"
  is_active := false
  is_botanist := false

/-- The C3 database. -/
def C3db : DB := ⟨[C3user], [], []⟩

/-- The payload of the C3 token: subject `ina@x`, expiry 100. -/
def C3payload : JwtPayload := ⟨some "ina@x", 100⟩

/-- The C3 token, correctly signed over the secret `sec`. -/
def C3token : Jwt := ⟨C3payload, exCrypto.joseSign C3payload "sec"⟩

/-- A concrete instantiation of pydantic's `EmailStr` validator for
closed-input evaluation: accept exactly the strings containing `@`. -/
def exEmailStr : String → Bool := fun e => e.toList.contains '@'

/-- C3 counterexample: a token with a verifying signature and an unexpired
expiry whose subject resolves to a stored principal with `is_active =
false` is nevertheless resolved successfully — the claim's "active flag is
true" conjunct is not checked by the code. -/
theorem C3_counterexample :
    C3token.sig = exCrypto.joseSign C3token.payload "sec" ∧
    0 < C3token.payload.exp ∧
    C3user.is_active = false ∧
    get_current_user exCrypto exEmailStr "sec" 0 C3db C3token =
      .ok { id := 7, email := some "ina@x", username := some "ina", phone := some "9",
            is_active := false, is_botanist := false } :=
  ⟨rfl, by decide, rfl, rfl⟩

/-- C3 amended: provided every stored row is well-formed — each ciphertext
decrypts to a present value and the decrypted email passes the `EmailStr`
validation, so the `schemas.User` construction cannot raise — token
resolution succeeds iff the signature verifies against the configured
secret, the current time is before the embedded expiry, a subject claim is
present, and the subject's email hash matches a stored principal, with no
condition on the principal's active flag; and whenever that condition
fails, the result is exactly the generic 401 "Could not validate
credentials" error. -/
theorem C3_amended_token_resolution (c : Crypto) (emailstr : String → Bool)
    (secret : String) (now : Nat) (db : DB) (token : Jwt)
    (hint : ∀ u ∈ db.users,
      (∃ e, decrypt_value c u.email_encrypted = .ok (some e) ∧ emailstr e = true) ∧
      (∃ x, decrypt_value c u.username_encrypted = .ok (some x)) ∧
      (∃ x, decrypt_value c u.phone_encrypted = .ok (some x))) :
    ((∃ a, get_current_user c emailstr secret now db token = .ok a) ↔
      (token.sig = c.joseSign token.payload secret ∧ now < token.payload.exp ∧
        ∃ e, token.payload.sub = some e ∧
          ∃ u ∈ db.users, u.email_hash = hash_value c (some e))) ∧
    (¬(token.sig = c.joseSign token.payload secret ∧ now < token.payload.exp ∧
        ∃ e, token.payload.sub = some e ∧
          ∃ u ∈ db.users, u.email_hash = hash_value c (some e)) →
      get_current_user c emailstr secret now db token = .error credentialsException) := by
  constructor
  · constructor
    · rintro ⟨a, ha⟩
      by_cases hsig : token.sig = c.joseSign token.payload secret
      · by_cases hlt : now < token.payload.exp
        · refine ⟨hsig, hlt, ?_⟩
          cases hsub : token.payload.sub with
          | none => simp [get_current_user, hsig, hlt, hsub] at ha
          | some e =>
            refine ⟨e, rfl, ?_⟩
            cases hfind : db.users.find? (fun u => u.email_hash == hash_value c (some e)) with
            | none => simp [get_current_user, hsig, hlt, hsub, hfind] at ha
            | some u =>
              exact ⟨u, List.mem_of_find?_eq_some hfind,
                by simpa using List.find?_some hfind⟩
        · simp [get_current_user, hlt] at ha
      · simp [get_current_user, hsig] at ha
    · rintro ⟨hsig, hlt, e, hsub, u0, hmem0, heq0⟩
      have hs : (db.users.find? (fun u => u.email_hash == hash_value c (some e))).isSome :=
        List.find?_isSome.mpr ⟨u0, hmem0, by simp [heq0]⟩
      obtain ⟨u, hu⟩ := Option.isSome_iff_exists.mp hs
      obtain ⟨⟨e1, he1, hve1⟩, ⟨x2, hx2⟩, ⟨x3, hx3⟩⟩ := hint u (List.mem_of_find?_eq_some hu)
      simp [get_current_user, hsig, hlt, hsub, hu, he1, hx2, hx3, hve1]
  · intro hneg
    by_cases hsig : token.sig = c.joseSign token.payload secret
    · by_cases hlt : now < token.payload.exp
      · cases hsub : token.payload.sub with
        | none => simp [get_current_user, hsig, hlt, hsub]
        | some e =>
          have hfind : db.users.find? (fun u => u.email_hash == hash_value c (some e)) = none := by
            refine List.find?_eq_none.mpr (fun u hu => ?_)
            have hne : u.email_hash ≠ hash_value c (some e) :=
              fun heq => hneg ⟨hsig, hlt, e, hsub, u, hu, heq⟩
            simp [hne]
          simp [get_current_user, hsig, hlt, hsub, hfind]
      · simp [get_current_user, hlt]
    · simp [get_current_user, hsig]

/-- Witness for C3 (amended): the concrete valid token over the concrete
database resolves, via the right-to-left direction of the amended
equivalence. -/
theorem C3_witness :
    ∃ a, get_current_user exCrypto exEmailStr "sec" 0 C3db C3token = .ok a :=
  ((C3_amended_token_resolution exCrypto exEmailStr "sec" 0 C3db C3token
      (by
        intro u hu
        have hu' : u = C3user := by simpa [C3db] using hu
        subst hu'
        exact ⟨⟨"ina@x", rfl, rfl⟩, ⟨"ina", rfl⟩, ⟨"9", rfl⟩⟩)).1).mpr
    ⟨rfl, by decide, "ina@x", rfl, C3user, by simp [C3db], by decide⟩

/-- A 44-character string ending in `==` that is not base64 at all: the
pass-through branch of `prepare_key` hands it to Fernet unchanged. -/
def C9badKey : String := String.mk (List.replicate 42 '!' ++ ['=', '='])

/-- A well-formed Fernet key (44 urlsafe-base64 characters with the single
`=` pad that encoding 32 bytes produces): it fails the `==` suffix test,
so `prepare_key` does not use it as-is. -/
def C9goodKey : String := String.mk (List.replicate 43 'B' ++ ['='])

set_option maxRecDepth 4000 in
/-- C9 counterexample: the pre-formatted-key test is a length-44/`==`
suffix heuristic, so a malformed configuration string reaches the
encryption component unchanged, and a genuinely well-formed Fernet key
(which ends in a single `=`) is not used as-is but re-derived. -/
theorem C9_counterexample :
    prepare_key exCrypto C9badKey = C9badKey ∧
    plausibleFernetKey C9badKey = false ∧
    plausibleFernetKey C9goodKey = true ∧
    prepare_key exCrypto C9goodKey ≠ C9goodKey := by
  refine ⟨by decide, by decide, by decide, by decide⟩

/-- C9 amended: `prepare_key` returns the configuration string unchanged
exactly when it has length 44 and ends in `==` (whether or not it is a
valid key); every other string — including any genuine Fernet key, which
ends in a single `=` — is replaced by the urlsafe-base64 SHA-256
derivation, and every key produced by that derivation branch is
well-formed. -/
theorem C9_amended_key_preparation (c : Crypto) (s : String)
    (h32 : (c.sha256bytes s).length = 32)
    (hbytes : ∀ b ∈ c.sha256bytes s, b < 256) :
    (s.length = 44 ∧ s.drop 42 = "==" → prepare_key c s = s) ∧
    (¬(s.length = 44 ∧ s.drop 42 = "==") →
      plausibleFernetKey (prepare_key c s) = true) := by
  constructor
  · rintro ⟨h1, h2⟩
    unfold prepare_key
    rw [if_pos (by simp [h1, h2])]
  · intro hneg
    have hcond : (s.length == 44 && s.drop 42 == "==") = false := by
      by_cases h1 : s.length = 44
      · by_cases h2 : s.drop 42 = "=="
        · exact absurd ⟨h1, h2⟩ hneg
        · simp [h1, h2]
      · simp [h1]
    unfold prepare_key
    rw [if_neg (by simp [hcond])]
    obtain ⟨cs, hcs, hlen, hmem⟩ :=
      b64Encode_shape (c.sha256bytes s) hbytes (by rw [h32])
    have hlencs : cs.length = 43 := by rw [hlen, h32]
    rw [hcs]
    unfold plausibleFernetKey
    have htol : (String.mk (cs ++ ['='])).toList = cs ++ ['='] := rfl
    have hlenstr : (String.mk (cs ++ ['='])).length = 44 := by
      show (cs ++ ['=']).length = 44
      simp [hlencs]
    rw [htol]
    simp only [Bool.and_eq_true, beq_iff_eq]
    refine ⟨⟨hlenstr, ?_⟩, ?_⟩
    · rw [← hlencs, List.take_left]
      exact List.all_eq_true.mpr (fun ch hch => List.elem_iff.mpr (hmem ch hch))
    · exact List.getLast?_concat _

/-- Witness for C9 (amended): a short configuration secret yields a
well-formed derived key. -/
theorem C9_witness :
    plausibleFernetKey (prepare_key exCrypto "not-a-key") = true :=
  (C9_amended_key_preparation exCrypto "not-a-key" rfl (by decide)).2 (by decide)

end MSPRBack
